import Mathlib

/-!
Shallow embedding of `image_downloader.py` (pascalnagel/ImageDownloader).

The Python module is pure control flow over three effectful collaborators:
the HTTP layer (`requests.get`), the filesystem (`open`, `os.path.exists`,
`os.makedirs`) and the logger.  We embed the effectful collaborators as an
explicit `World` record of oracles (what each fetch returns, what the
filesystem contains, which writes succeed), and translate each Python
function into a Lean function over that record.  Logging is ignored: it
never influences control flow in the source.

Python exceptions are embedded with `PyResult`: a value or a raised
exception.  A Python function that returns a boolean but may raise becomes
`PyResult Bool`.  The `requests.Response` object is embedded by the three
fields the source reads: `status_code`, `headers.get('content-type')` and
`content`; its Python truthiness (`Response.__bool__` = `Response.ok`,
false exactly for status codes in `[400, 600)`) is `Response.ok` below.

The process pool in `download_images` is embedded as a sequential
linearisation: items run left to right, each seeing the filesystem left by
its predecessors.  The facts proved about the batch (one outcome per URL,
no abort on item failure, the frame property of failed items) are
schedule-independent.
-/

set_option autoImplicit false

namespace ImageDownloader

/-! ## Python string primitives used by the source -/

/-- Python `str.split(sep)` on a list of characters.  Always returns a
non-empty list; `"".split(sep) = [""]`. -/
def pySplit (sep : Char) : List Char → List (List Char)
  | [] => [[]]
  | c :: rest =>
    if c == sep then [] :: pySplit sep rest
    else
      match pySplit sep rest with
      | [] => [[c]]
      | h :: t => (c :: h) :: t

/-- Python `str.strip()`: drop whitespace from both ends. -/
def pyStrip (s : String) : String :=
  ⟨(((s.toList.dropWhile Char.isWhitespace).reverse.dropWhile Char.isWhitespace).reverse)⟩

/-- Does `needle` occur at the start of `hay`? (helper for substring test) -/
def startsWithL : List Char → List Char → Bool
  | [], _ => true
  | _ :: _, [] => false
  | a :: as, b :: bs => a == b && startsWithL as bs

/-- Python `needle in hay` on strings: substring containment. -/
def containsSub (needle : List Char) : List Char → Bool
  | [] => needle.isEmpty
  | c :: tl => startsWithL needle (c :: tl) || containsSub needle tl

/-- Split `l` at the first occurrence of the (non-empty) separator string
`sep`: `some (before, after)`, or `none` when `sep` does not occur. -/
def breakAtSep (sep : List Char) : List Char → Option (List Char × List Char)
  | [] => none
  | c :: rest =>
    if startsWithL sep (c :: rest) then some ([], (c :: rest).drop sep.length)
    else
      match breakAtSep sep rest with
      | none => none
      | some (before, after) => some (c :: before, after)

/-- Python `os.path.join(d, f)` for the shapes the source uses
(no absolute second component). -/
def os_path_join (d f : String) : String :=
  if d = "" then f
  else if d.toList.getLast? = some '/' then d ++ f
  else d ++ "/" ++ f

/-! ## Exceptions and results -/

/-- The Python exceptions relevant to the embedded control flow. -/
inductive PyErr where
  | typeError
  | ioError
  deriving Repr, DecidableEq

/-- A Python call that either returns a value or raises. -/
inductive PyResult (α : Type) where
  | val (a : α)
  | exn (e : PyErr)
  deriving Repr, DecidableEq

/-! ## The effectful world -/

/-- The fields of `requests.Response` that the source reads.
`contentType` is `response.headers.get('content-type')` (absent header =
`none`); `content` is the body bytes. -/
structure Response where
  status_code : Nat
  contentType : Option String
  content : List Nat
  deriving Repr, DecidableEq

/-- Python truthiness of a `requests.Response`: `Response.__bool__` is
`Response.ok`, which is false exactly when `raise_for_status` would raise,
i.e. for status codes in `[400, 600)`. -/
def Response.ok (r : Response) : Bool :=
  !(400 ≤ r.status_code && r.status_code < 600)

/-- What the network does for one URL: the GET completes with a response,
times out (`requests.exceptions.Timeout`), or fails with any other
transport error. -/
inductive FetchBehavior where
  | completes (r : Response)
  | timesOut
  | netError

/-- The external world an invocation runs against: the network oracle, the
file contents by path, directory existence, whether `os.makedirs` succeeds,
whether `open(path, 'wb')`+write succeeds, and the result of reading the
URL-list file (`none` = `IOError`). -/
structure World where
  fetch : String → FetchBehavior
  fs : String → Option (List Nat)
  dirExists : String → Bool
  mkdirOk : String → Bool
  writeOk : String → Bool
  urlFile : Option (List String)

/-! ## The source functions -/

/-- `get_filename_from_url` (lines 10-14):
`url.split('/')[-1]` then `.split('?')[0]`. -/
def get_filename_from_url (url : String) : String :=
  let last_path_element := (pySplit '/' url.toList).getLastD []
  let filename := (pySplit '?' last_path_element).headD []
  ⟨filename⟩

/-- `is_valid_response` (lines 17-23): false iff `status_code != 200`. -/
def is_valid_response (response : Response) : Bool :=
  if response.status_code != 200 then false else true

/-- `is_valid_content` (lines 26-33):
`content_type = response.headers.get('content-type')` followed by
`if 'image' not in content_type`.  When the header is absent,
`content_type` is `None` and `'image' not in None` raises `TypeError`. -/
def is_valid_content (response : Response) : PyResult Bool :=
  match response.contentType with
  | none => .exn .typeError
  | some content_type =>
      if !containsSub "image".toList content_type.toList then .val false
      else .val true

/-- Modelled from the spec: `is_valid_url` (lines 36-47) delegates to
`validators.url` from the external `validators` package, whose source is
not part of this repository.  The spec describes it as a pure URL grammar
check (dperini-style regex): a recognised scheme, `://`, a host that is a
dotted domain name with a valid TLD shape, an optional numeric port, and
an optional path/query/fragment; false, never raising, on anything
malformed.  IP-literal hosts, which no claim exercises, are outside the
modelled grammar. -/
def validLabelChars (l : List Char) : Bool :=
  !l.isEmpty
    && l.all (fun c => c.isAlpha || c.isDigit || c == '-')
    && (match l.head? with | some c => c != '-' | none => false)
    && (match l.getLast? with | some c => c != '-' | none => false)

/-- Modelled from the spec: TLD shape — at least two characters, all
alphabetic. -/
def validTld (l : List Char) : Bool :=
  decide (2 ≤ l.length) && l.all Char.isAlpha

/-- Modelled from the spec: host shape — at least two dot-separated labels,
each of valid label shape, the last of TLD shape. -/
def validHost (h : List Char) : Bool :=
  let labels := pySplit '.' h
  decide (2 ≤ labels.length) && labels.all validLabelChars
    && validTld (labels.getLastD [])

/-- Modelled from the spec: the URL grammar applied by `validators.url`. -/
def validators_url (url : String) : Bool :=
  match breakAtSep "://".toList url.toList with
  | none => false
  | some (scheme, rest) =>
    (scheme == "http".toList || scheme == "https".toList
        || scheme == "ftp".toList)
      && (let auth := rest.takeWhile (fun c => c != '/' && c != '?' && c != '#')
          match breakAtSep [':'] auth with
          | none => validHost auth
          | some (h, p) => validHost h && !p.isEmpty && p.all Char.isDigit)

/-- `is_valid_url` (lines 36-47): returns the verdict of `validators.url`,
logging aside. -/
def is_valid_url (url : String) : Bool :=
  if !validators_url url then false else true

/-- `get_image` (lines 62-75): returns the response when the GET completes
(whatever its status code), and the Python literal `False` — embedded as
`none` — on `Timeout` or any other exception. -/
def get_image (fetch : String → FetchBehavior) (image_url : String) :
    Option Response :=
  match fetch image_url with
  | .completes response => some response
  | .timesOut => none
  | .netError => none

/-- `save_image` (lines 50-59): attempts `open(file_path, 'wb')` and writes
`response.content`; returns `(True, updated filesystem)` on success and
`(False, unchanged filesystem)` when the write raises (caught by the bare
`except`). -/
def save_image (w : World) (response : Response) (file_path : String) :
    Bool × (String → Option (List Nat)) :=
  if w.writeOk file_path then
    (true, fun p => if p = file_path then some response.content else w.fs p)
  else
    (false, w.fs)

/-- `create_dest_dir` (lines 78-88): true when the directory already
exists; otherwise attempts `os.makedirs` and returns false when it raises
(caught as `IOError`). -/
def create_dest_dir (dirExists mkdirOk : String → Bool) (dest_dir : String) :
    Bool :=
  if dirExists dest_dir then true else mkdirOk dest_dir

/-- `read_lines_from_file` (lines 115-124): the lines of the file, or the
Python literal `False` — embedded as `none` — when reading raises. -/
def read_lines_from_file (urlFile : Option (List String)) :
    Option (List String) :=
  urlFile

/-! ## The per-item pipeline -/

/-- The per-item outcome taxonomy of the spec.  The embedded pipeline is
instrumented to report, instead of the bare Python boolean, which return
site of `download_single_image` produced the result; `outcomeToBool`
recovers the Python value.  `writeFailed` is in the taxonomy but is never
produced by the source (see the theorems below). -/
inductive ItemOutcome where
  | saved
  | skippedExisting
  | invalidUrl
  | invalidResponse
  | invalidContent
  | fetchFailed
  | writeFailed
  deriving Repr, DecidableEq

/-- The Python boolean that `download_single_image` actually returns at
the return site labelled by each outcome. -/
def outcomeToBool : ItemOutcome → Bool
  | .saved => true
  | _ => false

/-- Observable side effects of one invocation, for stating which stages
ran: an HTTP GET was issued, a file write was attempted, `os.makedirs`
was attempted. -/
inductive Effect where
  | fetchEff (url : String)
  | writeEff (path : String)
  | mkdirEff (dir : String)
  deriving Repr, DecidableEq

/-- Result of one `download_single_image` invocation: the (instrumented)
return value or escaped exception, the filesystem afterwards, and the
effects performed. -/
structure ItemResult where
  outcome : PyResult ItemOutcome
  fs : String → Option (List Nat)
  trace : List Effect

/-- `download_single_image` (lines 91-112), guard for guard.  Note three
places where the source diverges from the spec's state machine:
the `if not image:` guard (line 99) applies Python truthiness to the
response, so a completed response with status in `[400, 600)` exits there;
`is_valid_content` can raise (no handler here, so the exception escapes);
and the return value of `save_image` (line 110) is discarded, so the
function returns `True` even when the write failed. -/
def download_single_image (w : World) (url : String)
    (dest_dir : String) (replace_duplicates : Bool) : ItemResult :=
  -- line 96: `if not is_valid_url(url): return False`
  if is_valid_url url = false then ⟨.val .invalidUrl, w.fs, []⟩ else
  -- line 98: `image = get_image(url, timeout)`
  match get_image w.fetch url with
  -- line 99: `if not image: return False` — `image` is the literal `False`
  | none => ⟨.val .fetchFailed, w.fs, [.fetchEff url]⟩
  | some image =>
    -- line 99 again: `image` is a falsy `Response` (status in [400,600))
    if image.ok = false then ⟨.val .fetchFailed, w.fs, [.fetchEff url]⟩ else
    -- line 101: `if not is_valid_response(image, url): return False`
    if is_valid_response image = false then
      ⟨.val .invalidResponse, w.fs, [.fetchEff url]⟩ else
    -- line 103: `if not is_valid_content(image, url): return False`
    match is_valid_content image with
    | .exn e => ⟨.exn e, w.fs, [.fetchEff url]⟩
    | .val false => ⟨.val .invalidContent, w.fs, [.fetchEff url]⟩
    | .val true =>
      -- lines 105-106
      let image_file_path := os_path_join dest_dir (get_filename_from_url url)
      -- line 107: `if os.path.exists(...) and not replace_duplicates:`
      if (w.fs image_file_path).isSome && !replace_duplicates then
        ⟨.val .skippedExisting, w.fs, [.fetchEff url]⟩
      else
        -- line 110: `save_image(image, image_file_path)` — result ignored
        let s := save_image w image image_file_path
        -- line 112: `return True`
        ⟨.val .saved, s.2, [.fetchEff url, .writeEff image_file_path]⟩

/-! ## The batch coordinator -/

/-- Accumulated result of the worker pool: one (url, result) pair per
dispatched URL in input order, the final filesystem, and the effects. -/
structure PoolOut where
  outcomes : List (String × PyResult ItemOutcome)
  fs : String → Option (List Nat)
  trace : List Effect

/-- The pool of `download_single_image` workers (lines 138-145), embedded
as a sequential linearisation: each item sees the filesystem left by the
items before it.  `map_async` captures worker exceptions inside the result
object and `result.wait()` never re-raises them, so an item's exception is
recorded in its slot and the remaining items still run. -/
def runItems (w : World) (dest_dir : String) (replace_duplicates : Bool) :
    List String → (String → Option (List Nat)) → PoolOut
  | [], fs => ⟨[], fs, []⟩
  | url :: rest, fs =>
    let r := download_single_image { w with fs := fs } url dest_dir
      replace_duplicates
    let t := runItems w dest_dir replace_duplicates rest r.fs
    ⟨(url, r.outcome) :: t.outcomes, t.fs, r.trace ++ t.trace⟩

/-- Result of `download_images`: `ret` is what the Python function returns
to its caller (or the exception escaping it); `outcomes` is the
instrumented per-item record computed inside the pool, which the source
never returns (it calls `result.wait()` and discards the results). -/
structure BatchResult where
  ret : PyResult Bool
  outcomes : List (String × PyResult ItemOutcome)
  fs : String → Option (List Nat)
  trace : List Effect

/-- `download_images` (lines 127-146).  When `read_lines_from_file` fails
it returns the literal `False`, and the comprehension
`[line.strip() for line in lines]` then raises `TypeError` (a bool is not
iterable), which escapes. -/
def download_images (w : World) (dest_dir : String)
    (replace_duplicates : Bool) : BatchResult :=
  let dirTrace : List Effect :=
    if w.dirExists dest_dir then [] else [.mkdirEff dest_dir]
  -- lines 132-133: `if not create_dest_dir(dest_dir): return False`
  if create_dest_dir w.dirExists w.mkdirOk dest_dir = false then
    ⟨.val false, [], w.fs, dirTrace⟩
  else
    -- line 135
    match read_lines_from_file w.urlFile with
    | none => ⟨.exn .typeError, [], w.fs, dirTrace⟩
    | some lines =>
      -- line 136: `urls = [line.strip() for line in lines]`
      let urls := lines.map pyStrip
      -- lines 138-145: pool dispatch and wait
      let items := runItems w dest_dir replace_duplicates urls w.fs
      -- line 146: `return True`
      ⟨.val true, items.outcomes, items.fs, dirTrace ++ items.trace⟩

/-! ## Spec-side definitions for the filename claims

Written from the spec's words ("take the final path segment after the last
slash, then strip everything from the first question mark onward"), to be
compared with `get_filename_from_url`. -/

/-- The suffix of `l` after the last occurrence of `sep` (all of `l` when
`sep` does not occur). -/
def suffixAfterLast (sep : Char) : List Char → List Char
  | [] => []
  | c :: rest =>
    if sep ∈ rest then suffixAfterLast sep rest
    else if c = sep then rest
    else c :: rest

/-! ## Lemmas about `pySplit` -/

theorem pySplit_ne_nil (sep : Char) (l : List Char) : pySplit sep l ≠ [] := by
  induction l with
  | nil => simp [pySplit]
  | cons c rest ih =>
    simp only [pySplit]
    split
    · simp
    · split
      · simp
      · simp

theorem headD_pySplit (sep : Char) (l : List Char) :
    (pySplit sep l).headD [] = l.takeWhile (fun c => c != sep) := by
  induction l with
  | nil => rfl
  | cons c rest ih =>
    rw [List.takeWhile_cons]
    by_cases h : (c == sep) = true
    · have hceq : c = sep := beq_iff_eq.mp h
      simp [pySplit, h, hceq]
    · have hcne : c ≠ sep := by simpa using h
      rcases hs : pySplit sep rest with _ | ⟨h1, t1⟩
      · exact absurd hs (pySplit_ne_nil sep rest)
      · rw [hs] at ih
        simp only [List.headD_cons] at ih
        simp [pySplit, hs, hcne, ih]

theorem pySplit_of_not_mem (sep : Char) (l : List Char) (h : sep ∉ l) :
    pySplit sep l = [l] := by
  induction l with
  | nil => rfl
  | cons c rest ih =>
    have hc : c ≠ sep := by rintro rfl; exact h (List.mem_cons_self c rest)
    have hr : sep ∉ rest := fun hm => h (List.mem_cons_of_mem c hm)
    simp [pySplit, hc, ih hr]

theorem two_le_length_pySplit (sep : Char) (l : List Char) (h : sep ∈ l) :
    2 ≤ (pySplit sep l).length := by
  induction l with
  | nil => cases h
  | cons c rest ih =>
    by_cases hc : (c == sep) = true
    · have hne := pySplit_ne_nil sep rest
      have : 1 ≤ (pySplit sep rest).length := by
        cases hs : pySplit sep rest with
        | nil => exact absurd hs hne
        | cons a t => simp
      simp only [pySplit, hc, if_true, List.length_cons]
      omega
    · have hr : sep ∈ rest := by
        rcases List.mem_cons.mp h with h1 | h1
        · exact absurd (beq_iff_eq.mpr h1.symm) (by simpa using hc)
        · exact h1
      rcases hs : pySplit sep rest with _ | ⟨h1, t1⟩
      · exact absurd hs (pySplit_ne_nil sep rest)
      · have h2 := ih hr
        rw [hs] at h2
        simp only [pySplit, hc, if_false, hs, Bool.not_eq_true,
          List.length_cons] at *
        simpa using h2

theorem suffixAfterLast_of_not_mem (sep : Char) (l : List Char)
    (h : sep ∉ l) : suffixAfterLast sep l = l := by
  induction l with
  | nil => rfl
  | cons c rest ih =>
    have hc : c ≠ sep := by rintro rfl; exact h (List.mem_cons_self c rest)
    have hr : sep ∉ rest := fun hm => h (List.mem_cons_of_mem c hm)
    simp [suffixAfterLast, hr, hc]

theorem getLastD_pySplit (sep : Char) (l : List Char) :
    (pySplit sep l).getLastD [] = suffixAfterLast sep l := by
  induction l with
  | nil => rfl
  | cons c rest ih =>
    by_cases hc : (c == sep) = true
    · have hceq : c = sep := beq_iff_eq.mp hc
      simp only [pySplit, hc, if_true, List.getLastD_cons]
      rw [ih]
      by_cases hm : sep ∈ rest
      · simp [suffixAfterLast, hceq, hm]
      · simp [suffixAfterLast, hceq, hm, suffixAfterLast_of_not_mem sep rest hm]
    · have hcne : c ≠ sep := by simpa using hc
      rcases hs : pySplit sep rest with _ | ⟨h1, t1⟩
      · exact absurd hs (pySplit_ne_nil sep rest)
      · rcases t1 with _ | ⟨h2, t2⟩
        · -- `pySplit sep rest = [h1]`, so `sep ∉ rest` and `h1 = rest`
          have hm : sep ∉ rest := by
            intro hmem
            have := two_le_length_pySplit sep rest hmem
            rw [hs] at this
            simp at this
          have hrest : h1 = rest := by
            have := pySplit_of_not_mem sep rest hm
            rw [hs] at this
            simpa using this
          subst hrest
          simp [pySplit, hc, hs, suffixAfterLast, hm, hcne]
        · -- the tail is non-empty, so `sep ∈ rest`
          have hm : sep ∈ rest := by
            by_contra hmem
            have hsing := pySplit_of_not_mem sep rest hmem
            rw [hs] at hsing
            simp at hsing
          rw [hs] at ih
          have hgoal : (pySplit sep (c :: rest)).getLastD []
              = (h1 :: h2 :: t2).getLastD [] := by
            simp [pySplit, hcne, hs, List.getLastD_cons]
          rw [hgoal, ih]
          simp [suffixAfterLast, hm]

theorem suffixAfterLast_not_mem (sep : Char) (l : List Char) :
    sep ∉ suffixAfterLast sep l := by
  induction l with
  | nil => simp [suffixAfterLast]
  | cons c rest ih =>
    by_cases hm : sep ∈ rest
    · simpa [suffixAfterLast, hm] using ih
    · by_cases hc : c = sep
      · simp [suffixAfterLast, hm, hc]
      · simp only [suffixAfterLast, hm, hc, if_false]
        intro hmem
        rcases List.mem_cons.mp hmem with h1 | h1
        · exact hc h1.symm
        · exact hm h1

/-- The spec characterisation of `get_filename_from_url`: the suffix after
the last slash, truncated at the first question mark, with no decoding. -/
theorem get_filename_characterization (url : String) :
    get_filename_from_url url
      = ⟨(suffixAfterLast '/' url.toList).takeWhile (fun c => c != '?')⟩ := by
  unfold get_filename_from_url
  simp only [getLastD_pySplit, headD_pySplit]

/-! ## Claim theorems for the filename and URL-validator components -/

/-- C8 (confirmed): for every URL string, `get_filename_from_url` returns
the final path segment after the last slash with everything from the first
question mark onward stripped (and performs no URL-decoding, there being no
decoding anywhere in the definition); in particular on
"http://media.test.com/image.jpg?v=2&c=4" it returns exactly "image.jpg". -/
theorem c8_theorem :
    (∀ url : String,
      get_filename_from_url url
        = ⟨(suffixAfterLast '/' url.toList).takeWhile (fun c => c != '?')⟩)
    ∧ get_filename_from_url "http://media.test.com/image.jpg?v=2&c=4"
        = "image.jpg" :=
  ⟨get_filename_characterization, by decide⟩

/-- C10 (confirmed): `get_filename_from_url` is total (it is a total Lean
function over all strings; the Python indexings `[-1]` and `[0]` cannot
fail because `str.split` always returns a non-empty list, mirrored by
`pySplit_ne_nil`), and its result never contains a slash or a question
mark. -/
theorem c10_theorem :
    ∀ url : String,
      '/' ∉ (get_filename_from_url url).toList
      ∧ '?' ∉ (get_filename_from_url url).toList := by
  intro url
  rw [get_filename_characterization]
  constructor
  · intro hmem
    have hsub :=
      (List.takeWhile_sublist (l := suffixAfterLast '/' url.toList)
        (p := fun c => c != '?')).subset hmem
    exact absurd hsub (by
      have := suffixAfterLast_not_mem '/' url.toList
      exact this)
  · intro hmem
    have := List.mem_takeWhile_imp hmem
    simp at this

/-- C9 (confirmed): the modelled `validators.url`-based check is a total
boolean function (it cannot raise), it rejects the empty string, rejects
non-URL text, rejects an unrecognised scheme, and accepts a well-formed
https URL. -/
theorem c9_theorem :
    is_valid_url "" = false
    ∧ is_valid_url "isjdfsdfpwej42423n4k235" = false
    ∧ is_valid_url "nonono://somehost.com/image.jpg" = false
    ∧ is_valid_url "https://host.com/path/img.png" = true := by
  refine ⟨by decide, by decide, by decide, by decide⟩

/-! ## Code-level divergences from the spec (C1, C2, C3) -/

/-- World for C1: every GET completes with an HTTP 404 response. -/
def w404 : World :=
  ⟨fun _ => .completes ⟨404, some "text/html", [60]⟩,
   fun _ => none, fun _ => true, fun _ => true, fun _ => true, none⟩

/-- C1: the fetch itself does classify the completed 404 response as a
success — `get_image` returns the response — but the pipeline's guard
`if not image:` applies Python truthiness to the `Response`, which is
false for status 404, so the item exits at the fetch-check return site
(the FetchFailed site) and the status check `is_valid_response` never
runs.  The claim (outcome InvalidResponse via the ResponseCheck stage)
is contradicted by the code. -/
theorem c1_theorem :
    get_image w404.fetch "http://media.test.com/image.jpg"
        = some ⟨404, some "text/html", [60]⟩
    ∧ Response.ok ⟨404, some "text/html", [60]⟩ = false
    ∧ is_valid_response ⟨404, some "text/html", [60]⟩ = false
    ∧ (download_single_image w404 "http://media.test.com/image.jpg"
        "image_downloads" false).outcome = .val .fetchFailed
    ∧ (download_single_image w404 "http://media.test.com/image.jpg"
        "image_downloads" false).outcome ≠ .val .invalidResponse := by
  refine ⟨rfl, by decide, by decide, by decide, by decide⟩

/-- World for C2: every GET completes with a 200 response that carries no
content-type header. -/
def wNoCT : World :=
  ⟨fun _ => .completes ⟨200, none, [65]⟩,
   fun _ => none, fun _ => true, fun _ => true, fun _ => true, none⟩

/-- C2: when the content-type header is absent,
`response.headers.get('content-type')` is `None` and the membership test
`'image' not in None` raises `TypeError`; `download_single_image` has no
handler, so the exception escapes the pipeline.  The claim
(`isImageContent` returns false and nothing escapes) is contradicted by
the code. -/
theorem c2_theorem :
    is_valid_content ⟨200, none, [65]⟩ = .exn .typeError
    ∧ (download_single_image wNoCT "http://media.test.com/image.jpg"
        "image_downloads" false).outcome = .exn .typeError := by
  refine ⟨rfl, by decide⟩

/-- World for C3: the item passes every check, no file exists at the
destination, and the write fails (e.g. the parent directory is missing:
`open(file_path, 'wb')` raises). -/
def wC3 : World :=
  ⟨fun _ => .completes ⟨200, some "image/jpeg", [65, 66, 67]⟩,
   fun _ => none, fun _ => true, fun _ => true, fun _ => false, none⟩

/-- C3: `save_image` itself behaves as claimed — it returns `False`
without raising, and creates no file — but `download_single_image`
discards that return value (line 110), logs success and returns `True`:
the item's terminal outcome is the Saved site, not WriteFailed.  The
second half of the claim is contradicted by the code. -/
theorem c3_theorem :
    (save_image wC3 ⟨200, some "image/jpeg", [65, 66, 67]⟩
        "image_downloads/image.jpg").1 = false
    ∧ (save_image wC3 ⟨200, some "image/jpeg", [65, 66, 67]⟩
        "image_downloads/image.jpg").2 "image_downloads/image.jpg" = none
    ∧ (download_single_image wC3 "http://media.test.com/image.jpg"
        "image_downloads" false).outcome = .val .saved
    ∧ (download_single_image wC3 "http://media.test.com/image.jpg"
        "image_downloads" false).outcome ≠ .val .writeFailed := by
  refine ⟨by decide, by decide, by decide, by decide⟩

/-! ## C7: the duplicate policy of the saving stage -/

/-- C7 (confirmed): for an item that reaches the saving stage with a file
already present at the destination path: with `replace_duplicates = false`
the outcome is the SkippedExisting site and the filesystem — in particular
the existing file — is untouched; with `replace_duplicates = true` (and a
destination the OS lets the process write) the file is overwritten with
the response bytes and the outcome is the Saved site. -/
theorem c7_theorem (w : World) (url dest_dir : String) (r : Response)
    (old : List Nat)
    (hv : is_valid_url url = true)
    (hf : w.fetch url = .completes r)
    (hst : r.status_code = 200)
    (hct : is_valid_content r = .val true)
    (hex : w.fs (os_path_join dest_dir (get_filename_from_url url))
        = some old) :
    ((download_single_image w url dest_dir false).outcome
        = .val .skippedExisting
      ∧ (download_single_image w url dest_dir false).fs = w.fs)
    ∧ (w.writeOk (os_path_join dest_dir (get_filename_from_url url)) = true →
        (download_single_image w url dest_dir true).outcome = .val .saved
        ∧ (download_single_image w url dest_dir true).fs
            (os_path_join dest_dir (get_filename_from_url url))
          = some r.content) := by
  have hok : r.ok = true := by simp [Response.ok, hst]
  have hresp : is_valid_response r = true := by simp [is_valid_response, hst]
  refine ⟨⟨?_, ?_⟩, fun hw => ⟨?_, ?_⟩⟩
  · simp [download_single_image, hv, get_image, hf, hok, hresp, hct, hex]
  · simp [download_single_image, hv, get_image, hf, hok, hresp, hct, hex]
  · simp [download_single_image, hv, get_image, hf, hok, hresp, hct, hex]
  · simp [download_single_image, hv, get_image, hf, hok, hresp, hct, hex,
      save_image, hw]

/-- World for the C7 witness: a file with bytes `[1, 2]` already exists at
"image_downloads/image.jpg"; the GET returns image bytes `[65, 66, 67]`. -/
def wC7 : World :=
  ⟨fun _ => .completes ⟨200, some "image/jpeg", [65, 66, 67]⟩,
   fun p => if p = "image_downloads/image.jpg" then some [1, 2] else none,
   fun _ => true, fun _ => true, fun _ => true, none⟩

theorem c7_witness :
    ((download_single_image wC7 "http://media.test.com/image.jpg"
        "image_downloads" false).outcome = .val .skippedExisting
      ∧ (download_single_image wC7 "http://media.test.com/image.jpg"
        "image_downloads" false).fs = wC7.fs)
    ∧ ((download_single_image wC7 "http://media.test.com/image.jpg"
        "image_downloads" true).outcome = .val .saved
      ∧ (download_single_image wC7 "http://media.test.com/image.jpg"
        "image_downloads" true).fs "image_downloads/image.jpg"
        = some [65, 66, 67]) := by
  have h := c7_theorem wC7 "http://media.test.com/image.jpg"
    "image_downloads" ⟨200, some "image/jpeg", [65, 66, 67]⟩ [1, 2]
    (by decide) rfl rfl (by decide) (by decide)
  exact ⟨h.1, h.2 rfl⟩

/-! ## C4: check order and short-circuiting -/

/-- World for C4: all checks pass, no existing file, but the write fails. -/
def wC4 : World :=
  ⟨fun _ => .completes ⟨200, some "image/jpeg", [65, 66, 67]⟩,
   fun _ => none, fun _ => true, fun _ => true, fun _ => false, none⟩

/-- C4 counterexample: the filesystem-save step fails — `save_image`
returns `False` — yet the item does not terminate with the corresponding
outcome (WriteFailed); the pipeline returns the Saved site.  So it is not
true that the first failing check among the claim's five (ending with
"filesystem save") terminates the item with the corresponding terminal
outcome. -/
theorem c4_counterexample :
    (save_image wC4 ⟨200, some "image/jpeg", [65, 66, 67]⟩
        "image_downloads/image.jpg").1 = false
    ∧ (download_single_image wC4 "http://media.test.com/image.jpg"
        "image_downloads" false).outcome ≠ .val .writeFailed
    ∧ (download_single_image wC4 "http://media.test.com/image.jpg"
        "image_downloads" false).outcome = .val .saved := by
  refine ⟨by decide, by decide, by decide⟩

/-- C4 (amended): `download_single_image` evaluates its checks in the
fixed order URL syntax, fetch result (Python truthiness of the response),
HTTP status, content-type, destination-file existence; the first failing
of these checks terminates the item immediately with that site's outcome
and with no later stage executed — in particular an invalid URL causes no
fetch and no write, and every pre-save failure causes no write.  The save
step itself is not a check: once it is reached the outcome is the Saved
site even when the write fails, and a content-type check that raises
propagates the exception instead of producing an outcome. -/
theorem c4_amended_theorem :
    (∀ (w : World) (url d : String) (rep : Bool),
      is_valid_url url = false →
        download_single_image w url d rep
          = ⟨.val .invalidUrl, w.fs, []⟩)
  ∧ (∀ (w : World) (url d : String) (rep : Bool),
      is_valid_url url = true → get_image w.fetch url = none →
        download_single_image w url d rep
          = ⟨.val .fetchFailed, w.fs, [.fetchEff url]⟩)
  ∧ (∀ (w : World) (url d : String) (rep : Bool) (r : Response),
      is_valid_url url = true → get_image w.fetch url = some r →
      r.ok = false →
        download_single_image w url d rep
          = ⟨.val .fetchFailed, w.fs, [.fetchEff url]⟩)
  ∧ (∀ (w : World) (url d : String) (rep : Bool) (r : Response),
      is_valid_url url = true → get_image w.fetch url = some r →
      r.ok = true → is_valid_response r = false →
        download_single_image w url d rep
          = ⟨.val .invalidResponse, w.fs, [.fetchEff url]⟩)
  ∧ (∀ (w : World) (url d : String) (rep : Bool) (r : Response) (e : PyErr),
      is_valid_url url = true → get_image w.fetch url = some r →
      r.ok = true → is_valid_response r = true →
      is_valid_content r = .exn e →
        download_single_image w url d rep
          = ⟨.exn e, w.fs, [.fetchEff url]⟩)
  ∧ (∀ (w : World) (url d : String) (rep : Bool) (r : Response),
      is_valid_url url = true → get_image w.fetch url = some r →
      r.ok = true → is_valid_response r = true →
      is_valid_content r = .val false →
        download_single_image w url d rep
          = ⟨.val .invalidContent, w.fs, [.fetchEff url]⟩)
  ∧ (∀ (w : World) (url d : String) (rep : Bool) (r : Response),
      is_valid_url url = true → get_image w.fetch url = some r →
      r.ok = true → is_valid_response r = true →
      is_valid_content r = .val true →
      ((w.fs (os_path_join d (get_filename_from_url url))).isSome
          && !rep) = true →
        download_single_image w url d rep
          = ⟨.val .skippedExisting, w.fs, [.fetchEff url]⟩)
  ∧ (∀ (w : World) (url d : String) (rep : Bool) (r : Response),
      is_valid_url url = true → get_image w.fetch url = some r →
      r.ok = true → is_valid_response r = true →
      is_valid_content r = .val true →
      ((w.fs (os_path_join d (get_filename_from_url url))).isSome
          && !rep) = false →
        (download_single_image w url d rep).outcome = .val .saved
        ∧ (download_single_image w url d rep).trace
            = [.fetchEff url,
               .writeEff (os_path_join d (get_filename_from_url url))]
        ∧ (w.writeOk (os_path_join d (get_filename_from_url url)) = false →
            (download_single_image w url d rep).fs = w.fs)) := by
  refine ⟨?_, ?_, ?_, ?_, ?_, ?_, ?_, ?_⟩
  · intro w url d rep hv
    simp [download_single_image, hv]
  · intro w url d rep hv hf
    simp [download_single_image, hv, hf]
  · intro w url d rep r hv hf hok
    simp [download_single_image, hv, hf, hok]
  · intro w url d rep r hv hf hok hresp
    simp [download_single_image, hv, hf, hok, hresp]
  · intro w url d rep r e hv hf hok hresp hct
    simp [download_single_image, hv, hf, hok, hresp, hct]
  · intro w url d rep r hv hf hok hresp hct
    simp [download_single_image, hv, hf, hok, hresp, hct]
  · intro w url d rep r hv hf hok hresp hct hskip
    simp [download_single_image, hv, hf, hok, hresp, hct, hskip]
  · intro w url d rep r hv hf hok hresp hct hskip
    refine ⟨?_, ?_, fun hw => ?_⟩
    · simp [download_single_image, hv, hf, hok, hresp, hct, hskip]
    · simp [download_single_image, hv, hf, hok, hresp, hct, hskip]
    · simp [download_single_image, hv, hf, hok, hresp, hct, hskip,
        save_image, hw]

theorem c4_amended_witness :
    (download_single_image wC4 "notaurl" "image_downloads" false
        = ⟨.val .invalidUrl, wC4.fs, []⟩)
    ∧ ((download_single_image wC4 "http://media.test.com/image.jpg"
          "image_downloads" false).outcome = .val .saved
      ∧ (download_single_image wC4 "http://media.test.com/image.jpg"
          "image_downloads" false).fs = wC4.fs) := by
  have h1 := c4_amended_theorem.1 wC4 "notaurl" "image_downloads" false
    (by decide)
  have h8 := c4_amended_theorem.2.2.2.2.2.2.2 wC4
    "http://media.test.com/image.jpg" "image_downloads" false
    ⟨200, some "image/jpeg", [65, 66, 67]⟩
    (by decide) rfl (by decide) (by decide) (by decide) (by decide)
  exact ⟨h1, h8.1, h8.2.2 rfl⟩

/-! ## Batch-level lemmas -/

/-- Every invocation of the pipeline leaves one of three effect traces:
nothing, one fetch, or one fetch followed by one write attempt. -/
theorem dsi_trace_cases (w : World) (url d : String) (rep : Bool) :
    (download_single_image w url d rep).trace = []
    ∨ (download_single_image w url d rep).trace = [.fetchEff url]
    ∨ (download_single_image w url d rep).trace
        = [.fetchEff url,
           .writeEff (os_path_join d (get_filename_from_url url))] := by
  unfold download_single_image
  split
  · exact Or.inl rfl
  · split
    · exact Or.inr (Or.inl rfl)
    · split
      · exact Or.inr (Or.inl rfl)
      · split
        · exact Or.inr (Or.inl rfl)
        · split
          · exact Or.inr (Or.inl rfl)
          · exact Or.inr (Or.inl rfl)
          · dsimp only
            split
            · exact Or.inr (Or.inl rfl)
            · exact Or.inr (Or.inr rfl)

/-- Either the pipeline ends at the Saved site, or it leaves the
filesystem untouched. -/
theorem dsi_saved_or_fs_frame (w : World) (url d : String) (rep : Bool) :
    (download_single_image w url d rep).outcome = .val .saved
    ∨ (download_single_image w url d rep).fs = w.fs := by
  unfold download_single_image
  split
  · exact Or.inr rfl
  · split
    · exact Or.inr rfl
    · split
      · exact Or.inr rfl
      · split
        · exact Or.inr rfl
        · split
          · exact Or.inr rfl
          · exact Or.inr rfl
          · dsimp only
            split
            · exact Or.inr rfl
            · exact Or.inl rfl

/-- The worker pool produces exactly one outcome per dispatched URL, in
input order, each paired with its source URL. -/
theorem runItems_outcomes_fst (w : World) (d : String) (rep : Bool) :
    ∀ (urls : List String) (fs : String → Option (List Nat)),
      (runItems w d rep urls fs).outcomes.map Prod.fst = urls := by
  intro urls
  induction urls with
  | nil => intro fs; rfl
  | cons u rest ih => intro fs; simp [runItems, ih]

/-- The worker pool never attempts a directory creation. -/
theorem runItems_trace_no_mkdir (w : World) (d : String) (rep : Bool) :
    ∀ (urls : List String) (fs : String → Option (List Nat)) (s : String),
      Effect.mkdirEff s ∉ (runItems w d rep urls fs).trace := by
  intro urls
  induction urls with
  | nil => intro fs s; simp [runItems]
  | cons u rest ih =>
    intro fs s
    simp only [runItems, List.mem_append]
    rintro (h | h)
    · rcases dsi_trace_cases { w with fs := fs } u d rep with h1 | h1 | h1 <;>
        rw [h1] at h <;> simp at h
    · exact ih _ s h

/-! ## C5: one outcome per URL, and what the coordinator returns -/

/-- World for C5 where the single URL downloads successfully. -/
def wC5a : World :=
  ⟨fun _ => .completes ⟨200, some "image/jpeg", [65, 66, 67]⟩,
   fun _ => none, fun _ => true, fun _ => true, fun _ => true,
   some ["http://media.test.com/image.jpg"]⟩

/-- World for C5, identical except the single URL's fetch fails. -/
def wC5b : World :=
  ⟨fun _ => .netError,
   fun _ => none, fun _ => true, fun _ => true, fun _ => true,
   some ["http://media.test.com/image.jpg"]⟩

/-- C5 counterexample: two runs over the same input whose per-item
outcomes differ (Saved versus FetchFailed) both make `download_images`
return the same bare value `True`.  The caller-visible return value is
therefore not the set of outcomes: the source computes the outcomes inside
the pool and discards them (`result.wait()` with no `result.get()`),
contradicting "returns the complete set of outcomes to the caller". -/
theorem c5_counterexample :
    (download_images wC5a "image_downloads" false).outcomes
      ≠ (download_images wC5b "image_downloads" false).outcomes
    ∧ (download_images wC5a "image_downloads" false).ret = .val true
    ∧ (download_images wC5b "image_downloads" false).ret = .val true := by
  refine ⟨by decide, by decide, by decide⟩

/-- C5 (amended): when the destination directory is available (and the
URL file is readable), the pool computes exactly one ItemOutcome per input
line — no silent drops, no duplicates — in input order, each outcome
paired with its (whitespace-stripped) source URL; but `download_images`
returns only the bare value `True` to its caller, discarding those
outcomes. -/
theorem c5_amended_theorem (w : World) (d : String) (rep : Bool)
    (lines : List String)
    (hdir : create_dest_dir w.dirExists w.mkdirOk d = true)
    (hfile : w.urlFile = some lines) :
    (download_images w d rep).ret = .val true
    ∧ (download_images w d rep).outcomes.map Prod.fst = lines.map pyStrip
    ∧ (download_images w d rep).outcomes.length = lines.length := by
  have hout : (download_images w d rep).outcomes
      = (runItems w d rep (lines.map pyStrip) w.fs).outcomes := by
    simp [download_images, hdir, read_lines_from_file, hfile]
  have hfst : (download_images w d rep).outcomes.map Prod.fst
      = lines.map pyStrip := by
    rw [hout, runItems_outcomes_fst]
  refine ⟨?_, hfst, ?_⟩
  · simp [download_images, hdir, read_lines_from_file, hfile]
  · have := congrArg List.length hfst
    simpa using this

theorem c5_amended_witness :
    (download_images wC5a "image_downloads" false).ret = .val true
    ∧ (download_images wC5a "image_downloads" false).outcomes.map Prod.fst
        = ["http://media.test.com/image.jpg"]
    ∧ (download_images wC5a "image_downloads" false).outcomes.length = 1 := by
  have h := c5_amended_theorem wC5a "image_downloads" false
    ["http://media.test.com/image.jpg"] (by decide) rfl
  refine ⟨h.1, ?_, h.2.2⟩
  rw [h.2.1]
  decide

/-! ## C6: batch abort conditions and failure isolation -/

/-- World for the C6 counterexample: the destination directory exists
(directory creation trivially succeeds), but the URL file is unreadable. -/
def wC6 : World :=
  ⟨fun _ => .netError, fun _ => none, fun _ => true, fun _ => true,
   fun _ => true, none⟩

/-- C6 counterexample: directory creation is not the only single failure
that aborts the whole run.  Here `create_dest_dir` succeeds, yet the run
aborts with no items processed: `read_lines_from_file` returns the
literal `False` and the comprehension `[line.strip() for line in lines]`
raises `TypeError`, which escapes `download_images`. -/
theorem c6_counterexample :
    create_dest_dir wC6.dirExists wC6.mkdirOk "image_downloads" = true
    ∧ (download_images wC6 "image_downloads" false).ret = .exn .typeError
    ∧ (download_images wC6 "image_downloads" false).outcomes = [] := by
  refine ⟨rfl, by decide, by decide⟩

/-- C6 (amended): the coordinator runs the directory step exactly once,
before any dispatch; if directory creation fails the batch fails fast
with no items processed; a failure to read the URL file also aborts the
run (an escaped `TypeError`), likewise before any dispatch; and per-item
failures never abort the batch — when the directory step and the file
read succeed, every input line still receives an outcome — and an item
that does not reach the Saved site leaves the filesystem unchanged, so
sibling items are unaffected by it. -/
theorem c6_amended_theorem :
    (∀ (w : World) (d : String) (rep : Bool),
      create_dest_dir w.dirExists w.mkdirOk d = false →
        (download_images w d rep).ret = .val false
        ∧ (download_images w d rep).outcomes = []
        ∧ (download_images w d rep).fs = w.fs
        ∧ (∀ u, Effect.fetchEff u ∉ (download_images w d rep).trace)
        ∧ (∀ p, Effect.writeEff p ∉ (download_images w d rep).trace))
  ∧ (∀ (w : World) (d : String) (rep : Bool),
      w.urlFile = none →
        (download_images w d rep).ret = .val false
        ∨ (download_images w d rep).ret = .exn .typeError
        ∧ (download_images w d rep).outcomes = [])
  ∧ (∀ (w : World) (d : String) (rep : Bool),
      ∃ t, (download_images w d rep).trace
          = (if w.dirExists d then ([] : List Effect) else [.mkdirEff d]) ++ t
        ∧ ∀ s, Effect.mkdirEff s ∉ t)
  ∧ (∀ (w : World) (d : String) (rep : Bool) (lines : List String),
      create_dest_dir w.dirExists w.mkdirOk d = true →
      w.urlFile = some lines →
        (download_images w d rep).ret = .val true
        ∧ (download_images w d rep).outcomes.length = lines.length)
  ∧ (∀ (w : World) (url d : String) (rep : Bool),
      (download_single_image w url d rep).outcome ≠ .val .saved →
        (download_single_image w url d rep).fs = w.fs) := by
  refine ⟨?_, ?_, ?_, ?_, ?_⟩
  · intro w d rep hdir
    refine ⟨?_, ?_, ?_, ?_, ?_⟩
    · simp [download_images, hdir]
    · simp [download_images, hdir]
    · simp [download_images, hdir]
    · have htr : (download_images w d rep).trace
          = (if w.dirExists d then ([] : List Effect) else [.mkdirEff d]) := by
        simp [download_images, hdir]
      intro u
      rw [htr]
      split <;> simp
    · have htr : (download_images w d rep).trace
          = (if w.dirExists d then ([] : List Effect) else [.mkdirEff d]) := by
        simp [download_images, hdir]
      intro p
      rw [htr]
      split <;> simp
  · intro w d rep hfile
    by_cases hdir : create_dest_dir w.dirExists w.mkdirOk d = false
    · exact Or.inl (by simp [download_images, hdir])
    · refine Or.inr ⟨?_, ?_⟩
      · simp [download_images, hdir, read_lines_from_file, hfile]
      · simp [download_images, hdir, read_lines_from_file, hfile]
  · intro w d rep
    by_cases hdir : create_dest_dir w.dirExists w.mkdirOk d = false
    · exact ⟨[], by simp [download_images, hdir], by simp⟩
    · cases hfile : w.urlFile with
      | none =>
        exact ⟨[], by simp [download_images, hdir, read_lines_from_file,
          hfile], by simp⟩
      | some lines =>
        refine ⟨(runItems w d rep (lines.map pyStrip) w.fs).trace, ?_, ?_⟩
        · simp [download_images, hdir, read_lines_from_file, hfile]
        · intro s
          exact runItems_trace_no_mkdir w d rep (lines.map pyStrip) w.fs s
  · intro w d rep lines hdir hfile
    constructor
    · simp [download_images, hdir, read_lines_from_file, hfile]
    · have hout : (download_images w d rep).outcomes
          = (runItems w d rep (lines.map pyStrip) w.fs).outcomes := by
        simp [download_images, hdir, read_lines_from_file, hfile]
      have := congrArg List.length
        (runItems_outcomes_fst w d rep (lines.map pyStrip) w.fs)
      rw [hout]
      simpa using this
  · intro w url d rep h
    exact (dsi_saved_or_fs_frame w url d rep).resolve_left h

/-- World for the C6 witness, directory-failure side: the directory does
not exist and `os.makedirs` fails. -/
def wC6b : World :=
  ⟨fun _ => .netError, fun _ => none, fun _ => false, fun _ => false,
   fun _ => true, none⟩

/-- World for the C6 witness, isolation side: two lines, both of which
fail (one bad fetch, one invalid URL); both still get an outcome. -/
def wC6c : World :=
  ⟨fun _ => .netError, fun _ => none, fun _ => true, fun _ => true,
   fun _ => true, some ["http://media.test.com/image.jpg", "notaurl"]⟩

theorem c6_amended_witness :
    ((download_images wC6b "image_downloads" false).ret = .val false
      ∧ (download_images wC6b "image_downloads" false).outcomes = [])
    ∧ ((download_images wC6c "image_downloads" false).ret = .val true
      ∧ (download_images wC6c "image_downloads" false).outcomes.length = 2)
    ∧ (download_single_image wC6c "notaurl" "image_downloads" false).fs
        = wC6c.fs := by
  have h1 := c6_amended_theorem.1 wC6b "image_downloads" false (by decide)
  have h4 := c6_amended_theorem.2.2.2.1 wC6c "image_downloads" false
    ["http://media.test.com/image.jpg", "notaurl"] (by decide) rfl
  have h5 := c6_amended_theorem.2.2.2.2 wC6c "notaurl" "image_downloads"
    false (by decide)
  exact ⟨⟨h1.1, h1.2.1⟩, ⟨h4.1, h4.2⟩, h5⟩

end ImageDownloader
